import Mathlib

/-!
Verification of the minerva-ops access-control core.

This file embeds the tenant resolver and the access predicates of the
repository (src/minerva-hub/src/lib/auth.ts, src/minerva-hub/src/collections/Users.ts,
src/minerva-hub/src/collections/Tenants.ts) as total Lean functions and proves
the spec's testable properties about them.

The JS value shapes relevant to the core are modelled explicitly:
optional fields become `Option`, a JS `x || y` on possibly-undefined strings
becomes `jsOr`, and `Array.filter(Boolean)` keeps exactly truthy strings.
-/

/-- The value stored under a membership entry's `tenant` key.
`other` stands for any value that is neither a string nor a non-null object
(null, undefined, numbers, ...): the source's
`typeof ref === 'object' && ref !== null` guard rejects all of those alike,
falling through to the wrapper object's own `id`/`value` fields. -/
inductive TenantRef where
  | str (s : String)
  | obj (oid : Option String) (oval : Option String)
  | other
deriving DecidableEq, Repr

/-- One entry of a user's `tenants` array: either a bare identifier string or
an object carrying an optional `tenant` key (`none` = key absent) plus
optional `id` and `value` fields. -/
inductive TenantEntry where
  | str (s : String)
  | obj (tenant : Option TenantRef) (oid : Option String) (oval : Option String)
deriving DecidableEq, Repr

/-- The `AuthUser` interface of src/minerva-hub/src/lib/auth.ts:
`id?: string; roles?: string[]; tenants?: Array<...>`. -/
structure AuthUser where
  id : Option String
  roles : Option (List String)
  tenants : Option (List TenantEntry)
deriving DecidableEq, Repr

/-- JS `a || b` on two possibly-undefined strings: yields `a` when `a` is a
truthy (non-empty) string, otherwise `b`. -/
def jsOr (a b : Option String) : Option String :=
  match a with
  | some s => if s = "" then b else some s
  | none => b

/-- JS truthiness of a possibly-undefined string: defined and non-empty. -/
def truthy : Option String → Bool
  | some s => s != ""
  | none => false

/-- The per-entry resolution inside `getTenantIds`'s `.map` callback:
a string entry is used directly; an object entry with a `tenant` key
dereferences it (string → itself, non-null object → `id || value`); every
other case falls through to the entry's own `id || value`. -/
def resolveEntry : TenantEntry → Option String
  | TenantEntry.str s => some s
  | TenantEntry.obj t oid oval =>
    match t with
    | some (TenantRef.str s) => some s
    | some (TenantRef.obj rid rval) => jsOr rid rval
    | some TenantRef.other => jsOr oid oval
    | none => jsOr oid oval

/-- `isSuperAdmin` of src/minerva-hub/src/lib/auth.ts:
`Boolean(user?.roles?.includes('super-admin'))`. -/
def isSuperAdmin (user : Option AuthUser) : Bool :=
  match user with
  | none => false
  | some u =>
    match u.roles with
    | none => false
    | some rs => rs.contains "super-admin"

/-- `getTenantIds` of src/minerva-hub/src/lib/auth.ts: absent user or absent
`tenants` collection yields `[]`; otherwise map each entry through the
resolution callback and keep exactly the truthy results
(`.map(...).filter(Boolean)`). -/
def getTenantIds (user : Option AuthUser) : List String :=
  match user with
  | none => []
  | some u =>
    match u.tenants with
    | none => []
    | some ts => (ts.map resolveEntry).filterMap (fun o => if truthy o then o else none)

/-- The membership list of spec §8's resolver test vector:
`["t1", {id:"t2"}, {value:"t3"}, {tenant:"t4"}, {tenant:{id:"t5"}},
{tenant:{value:"t6"}}, {}, {tenant:{}}]`. -/
def resolverTestEntries : List TenantEntry :=
  [ TenantEntry.str "t1"
  , TenantEntry.obj none (some "t2") none
  , TenantEntry.obj none none (some "t3")
  , TenantEntry.obj (some (TenantRef.str "t4")) none none
  , TenantEntry.obj (some (TenantRef.obj (some "t5") none)) none none
  , TenantEntry.obj (some (TenantRef.obj none (some "t6"))) none none
  , TenantEntry.obj none none none
  , TenantEntry.obj (some (TenantRef.obj none none)) none none ]

/-- The declarative query-constraint language the predicates emit:
field-equality (`{ field: { equals: v } }`), set-membership
(`{ field: { in: vs } }`) and logical or (`{ or: [...] }`). -/
inductive Where where
  | eqW (field : String) (v : Option String)
  | inW (field : String) (vs : List String)
  | orW (cs : List Where)
deriving Repr

/-- What a Payload access function may return: boolean `true` (full grant),
boolean `false` (full denial), or a query-constraint object. -/
inductive AccessResult where
  | grant
  | deny
  | filter (w : Where)
deriving Repr

/-- Coerce a JS boolean return value into an access result. -/
def AccessResult.ofBool (b : Bool) : AccessResult :=
  if b then AccessResult.grant else AccessResult.deny

/-- `tenantScopedAccess` of src/minerva-hub/src/collections/Users.ts, the
Users `read` predicate: deny when unauthenticated, grant to super-admins,
otherwise build the constraint list `[own-id equality]`, push the
tenant-membership constraint when the resolved tenant list is non-empty, and
return the single constraint unwrapped or the list under `or`. -/
def tenantScopedAccess (user : Option AuthUser) : AccessResult :=
  match user with
  | none => AccessResult.deny
  | some u =>
    if isSuperAdmin (some u) then AccessResult.grant
    else
      let tenantIds := getTenantIds (some u)
      let constraints : List Where :=
        [Where.eqW "id" u.id] ++
          (if tenantIds.length > 0 then [Where.inW "tenants.tenant" tenantIds] else [])
      match constraints with
      | [c] => AccessResult.filter c
      | cs => AccessResult.filter (Where.orW cs)

/-- `selfOrSuperAccess` of src/minerva-hub/src/collections/Users.ts, the
Users `update` predicate: deny when unauthenticated, grant to super-admins,
otherwise constrain to the user's own record. -/
def selfOrSuperAccess (user : Option AuthUser) : AccessResult :=
  match user with
  | none => AccessResult.deny
  | some u =>
    if isSuperAdmin (some u) then AccessResult.grant
    else AccessResult.filter (Where.eqW "id" u.id)

/-- Users `access.admin` of src/minerva-hub/src/collections/Users.ts:
`Boolean(user)`. -/
def usersAdminAccess (user : Option AuthUser) : AccessResult :=
  AccessResult.ofBool user.isSome

/-- Users `access.create` of src/minerva-hub/src/collections/Users.ts:
deny when unauthenticated, grant to super-admins, otherwise grant exactly
when the roles include `tenant-admin` (`roles?.includes(...) ?? false`). -/
def usersCreateAccess (user : Option AuthUser) : AccessResult :=
  match user with
  | none => AccessResult.deny
  | some u =>
    if isSuperAdmin (some u) then AccessResult.grant
    else AccessResult.ofBool ((u.roles.map (fun rs => rs.contains "tenant-admin")).getD false)

/-- Users `access.delete` of src/minerva-hub/src/collections/Users.ts:
`isSuperAdmin(user)`. -/
def usersDeleteAccess (user : Option AuthUser) : AccessResult :=
  AccessResult.ofBool (isSuperAdmin user)

/-- The `roles` field's `access.update` of
src/minerva-hub/src/collections/Users.ts: field-level access returns a plain
boolean, `isSuperAdmin(user)`. -/
def rolesFieldUpdateAccess (user : Option AuthUser) : Bool :=
  isSuperAdmin user

/-- The tenants-array field's `read` access (both `arrayFieldAccess.read` and
`tenantFieldAccess.read`) of src/minerva-hub/src/collections/Users.ts:
`Boolean(user)`. -/
def tenantsFieldReadAccess (user : Option AuthUser) : Bool :=
  user.isSome

/-- The tenants-array field's `update` access (both `arrayFieldAccess.update`
and `tenantFieldAccess.update`) of src/minerva-hub/src/collections/Users.ts:
`isSuperAdmin(user)`. -/
def tenantsFieldUpdateAccess (user : Option AuthUser) : Bool :=
  isSuperAdmin user

/-- `readTenantAccess` of src/minerva-hub/src/collections/Tenants.ts, the
Tenants `read` predicate: grant to super-admins, deny when the resolved
tenant list is empty, otherwise constrain the tenant id to that list. -/
def readTenantAccess (user : Option AuthUser) : AccessResult :=
  if isSuperAdmin user then AccessResult.grant
  else
    let tenantIds := getTenantIds user
    if tenantIds.length = 0 then AccessResult.deny
    else AccessResult.filter (Where.inW "id" tenantIds)

/-- Tenants `access.create` of src/minerva-hub/src/collections/Tenants.ts:
`isSuperAdmin(user)`. -/
def tenantsCreateAccess (user : Option AuthUser) : AccessResult :=
  AccessResult.ofBool (isSuperAdmin user)

/-- Tenants `access.update` of src/minerva-hub/src/collections/Tenants.ts:
`isSuperAdmin(user)`. -/
def tenantsUpdateAccess (user : Option AuthUser) : AccessResult :=
  AccessResult.ofBool (isSuperAdmin user)

/-- Tenants `access.delete` of src/minerva-hub/src/collections/Tenants.ts:
`isSuperAdmin(user)`. -/
def tenantsDeleteAccess (user : Option AuthUser) : AccessResult :=
  AccessResult.ofBool (isSuperAdmin user)

/-- Tenants `access.admin` of src/minerva-hub/src/collections/Tenants.ts:
`isSuperAdmin(user)`. -/
def tenantsAdminAccess (user : Option AuthUser) : AccessResult :=
  AccessResult.ofBool (isSuperAdmin user)

/-- The duplicated `isSuperAdmin` of the second Tenants collection variant:
`Array.isArray(user?.roles) && user.roles.includes('super-admin')`.
Over the `AuthUser` interface an absent `roles` fails the
`Array.isArray` test and a present `roles` is an array, so the check reduces
to membership of `super-admin`. -/
def isSuperAdminArrTenants (user : Option AuthUser) : Bool :=
  match user with
  | none => false
  | some u =>
    match u.roles with
    | none => false
    | some rs => rs.contains "super-admin"

/-- The duplicated `isSuperAdmin` of the second Users collection variant,
textually identical to the Tenants one:
`Array.isArray(user?.roles) && user.roles.includes('super-admin')`. -/
def isSuperAdminArrUsers (user : Option AuthUser) : Bool :=
  match user with
  | none => false
  | some u =>
    match u.roles with
    | none => false
    | some rs => rs.contains "super-admin"

/-- Tenants `access.read` of the second (role-gated) Tenants collection
variant: `Boolean(user)`. -/
def tenantsReadAccessVariant (user : Option AuthUser) : AccessResult :=
  AccessResult.ofBool user.isSome

/-- Tenants `access.create`/`update`/`delete` of the second Tenants collection
variant: the duplicated `isSuperAdmin`. -/
def tenantsMutateAccessVariant (user : Option AuthUser) : AccessResult :=
  AccessResult.ofBool (isSuperAdminArrTenants user)

/-- The `roles` field's `access.create`/`update` of the second Users
collection variant: the duplicated `isSuperAdmin`. -/
def rolesFieldAccessVariant (user : Option AuthUser) : Bool :=
  isSuperAdminArrUsers user

/-- A stored user record, as far as the emitted constraints inspect it:
its `id` and the tenant identifiers of its membership rows
(the `tenants.tenant` path). -/
structure UserRecord where
  rid : String
  rtenants : List String
deriving DecidableEq, Repr

mutual

/-- Semantics of the emitted constraint language against a stored user
record: `equals` on the `id` path, `in` on the `id` or `tenants.tenant`
paths, `or` as disjunction. -/
def matchesWhere (r : UserRecord) : Where → Bool
  | Where.eqW f v => f == "id" && v == some r.rid
  | Where.inW f vs =>
      (f == "id" && vs.contains r.rid) ||
        (f == "tenants.tenant" && r.rtenants.any (fun t => vs.contains t))
  | Where.orW cs => matchesAny r cs

/-- A record matches `or cs` exactly when it matches some member of `cs`. -/
def matchesAny (r : UserRecord) : List Where → Bool
  | [] => false
  | c :: cs => matchesWhere r c || matchesAny r cs

end

/-- The inbound mutation payload of a User create/update, split into the two
fields the creation hook touches (`tenants`, `roles`) and the remaining
fields, kept opaque as key/value pairs. -/
structure UserPayload where
  tenants : Option (List TenantEntry)
  roles : Option (List String)
  rest : List (String × String)
deriving DecidableEq, Repr

/-- `tenantIds.map((id) => ({ tenant: id }))`: wrap an identifier into a
membership entry `{ tenant: id }`. -/
def wrapTenant (id : String) : TenantEntry :=
  TenantEntry.obj (some (TenantRef.str id)) none none

/-- The Users `beforeChange` hook of
src/minerva-hub/src/collections/Users.ts: non-create operations and
absent or super-admin requesters pass the payload through; otherwise the
result spreads the payload, overwrites `tenants` with the requester's
resolved tenant ids each wrapped as `{ tenant: id }`, and sets `roles` to
`data?.roles ?? ['tenant-admin']`. -/
def beforeChange (data : Option UserPayload) (reqUser : Option AuthUser)
    (operation : String) : Option UserPayload :=
  if operation ≠ "create" then data
  else
    match reqUser with
    | none => data
    | some requester =>
      if isSuperAdmin (some requester) then data
      else
        let tenantIds := getTenantIds (some requester)
        some { tenants := some (tenantIds.map wrapTenant)
               roles := some ((data.bind UserPayload.roles).getD ["tenant-admin"])
               rest := (data.map UserPayload.rest).getD [] }

/-- C5: on the membership list `["t1", {id:"t2"}, {value:"t3"}, {tenant:"t4"},
{tenant:{id:"t5"}}, {tenant:{value:"t6"}}, {}, {tenant:{}}]` the resolver
yields exactly the identifiers t1..t6 (the two empty entries are dropped);
entries resolving to a falsy value (missing or empty string) are dropped;
an absent user or an absent membership collection yields the empty set. -/
theorem getTenantIds_resolves_test_vector :
    getTenantIds (some { id := none, roles := none, tenants := some resolverTestEntries })
      = ["t1", "t2", "t3", "t4", "t5", "t6"] ∧
    getTenantIds (some { id := none, roles := none
                         tenants := some [TenantEntry.str "", TenantEntry.obj none (some "") none] }) = [] ∧
    getTenantIds none = [] ∧
    getTenantIds (some { id := some "u", roles := some ["tenant-admin"], tenants := none }) = [] := by
  refine ⟨?_, ?_, rfl, rfl⟩ <;> decide

/-- A sample super-admin user snapshot with an unrelated tenant membership,
used to witness the super-admin override. -/
def superAdminSample : AuthUser :=
  { id := some "sa1", roles := some ["super-admin", "tenant-editor"],
    tenants := some [TenantEntry.str "t9"] }

/-- A sample authenticated tenant-admin snapshot with two memberships. -/
def tenantAdminSample : AuthUser :=
  { id := some "u1", roles := some ["tenant-admin"],
    tenants := some [TenantEntry.str "t1", TenantEntry.obj (some (TenantRef.str "t2")) none none] }

/-- C1: for every user whose role set contains `super-admin`, each of the
nine access predicates (Tenant create/read/update/delete/admin, User
create/read/update/delete) returns GRANT_ALL, whatever the user's tenant
membership, id, or the target record. -/
theorem super_admin_grants_every_predicate (u : AuthUser)
    (h : "super-admin" ∈ u.roles.getD []) :
    tenantsCreateAccess (some u) = AccessResult.grant ∧
    readTenantAccess (some u) = AccessResult.grant ∧
    tenantsUpdateAccess (some u) = AccessResult.grant ∧
    tenantsDeleteAccess (some u) = AccessResult.grant ∧
    tenantsAdminAccess (some u) = AccessResult.grant ∧
    usersCreateAccess (some u) = AccessResult.grant ∧
    tenantScopedAccess (some u) = AccessResult.grant ∧
    selfOrSuperAccess (some u) = AccessResult.grant ∧
    usersDeleteAccess (some u) = AccessResult.grant := by
  have hs : isSuperAdmin (some u) = true := by
    cases hr : u.roles with
    | none => rw [hr] at h; simp at h
    | some rs =>
      rw [hr] at h
      simp only [Option.getD_some] at h
      simp only [isSuperAdmin, hr]
      exact List.elem_iff.mpr h
  refine ⟨?_, ?_, ?_, ?_, ?_, ?_, ?_, ?_, ?_⟩ <;>
    simp [tenantsCreateAccess, readTenantAccess, tenantsUpdateAccess,
      tenantsDeleteAccess, tenantsAdminAccess, usersCreateAccess,
      tenantScopedAccess, selfOrSuperAccess, usersDeleteAccess,
      AccessResult.ofBool, hs]

/-- Witness for C1 at the concrete super-admin sample. -/
theorem super_admin_grants_every_predicate_witness :
    "super-admin" ∈ superAdminSample.roles.getD [] ∧
    (tenantsCreateAccess (some superAdminSample) = AccessResult.grant ∧
     readTenantAccess (some superAdminSample) = AccessResult.grant ∧
     tenantsUpdateAccess (some superAdminSample) = AccessResult.grant ∧
     tenantsDeleteAccess (some superAdminSample) = AccessResult.grant ∧
     tenantsAdminAccess (some superAdminSample) = AccessResult.grant ∧
     usersCreateAccess (some superAdminSample) = AccessResult.grant ∧
     tenantScopedAccess (some superAdminSample) = AccessResult.grant ∧
     selfOrSuperAccess (some superAdminSample) = AccessResult.grant ∧
     usersDeleteAccess (some superAdminSample) = AccessResult.grant) :=
  ⟨by decide, super_admin_grants_every_predicate superAdminSample (by decide)⟩

/-- C3: the User-read predicate denies an absent user; grants a super-admin;
otherwise, when the resolved tenant set is empty, returns exactly the single
own-id equality constraint (no enclosing or), and when it is non-empty,
returns the or of the own-id equality and the membership constraint. -/
theorem users_read_predicate_shape (u : Option AuthUser) :
    tenantScopedAccess u =
      match u with
      | none => AccessResult.deny
      | some v =>
        if isSuperAdmin (some v) then AccessResult.grant
        else if getTenantIds (some v) = [] then
          AccessResult.filter (Where.eqW "id" v.id)
        else
          AccessResult.filter (Where.orW
            [Where.eqW "id" v.id, Where.inW "tenants.tenant" (getTenantIds (some v))]) := by
  cases u with
  | none => rfl
  | some v =>
    by_cases hs : isSuperAdmin (some v) = true
    · simp [tenantScopedAccess, hs]
    · simp only [Bool.not_eq_true] at hs
      cases hts : getTenantIds (some v) with
      | nil => simp [tenantScopedAccess, hs, hts]
      | cons a as => simp [tenantScopedAccess, hs, hts]

/-- C4: the Tenant-read predicate grants a super-admin; otherwise, with a
non-empty resolved tenant set, constrains the tenant id to that set, and
with an empty resolved set (including an absent user) denies. -/
theorem tenants_read_predicate_shape (u : Option AuthUser) :
    (readTenantAccess u =
      if isSuperAdmin u then AccessResult.grant
      else if getTenantIds u = [] then AccessResult.deny
      else AccessResult.filter (Where.inW "id" (getTenantIds u))) ∧
    readTenantAccess none = AccessResult.deny := by
  constructor
  · by_cases hs : isSuperAdmin u = true
    · simp [readTenantAccess, hs]
    · simp only [Bool.not_eq_true] at hs
      cases hts : getTenantIds u with
      | nil => simp [readTenantAccess, hs, hts]
      | cons a as => simp [readTenantAccess, hs, hts]
  · rfl

/-- C9: with an absent user context, every access predicate of both
collection variants, and every field-level guard, resolves to the most
restrictive outcome — DENY_ALL (boolean false), never a grant or a filter.
Totality of every predicate is by construction of the embedding: each is a
total Lean function on all user snapshots. -/
theorem absent_user_denies_every_predicate :
    usersAdminAccess none = AccessResult.deny ∧
    usersCreateAccess none = AccessResult.deny ∧
    tenantScopedAccess none = AccessResult.deny ∧
    selfOrSuperAccess none = AccessResult.deny ∧
    usersDeleteAccess none = AccessResult.deny ∧
    tenantsCreateAccess none = AccessResult.deny ∧
    readTenantAccess none = AccessResult.deny ∧
    tenantsUpdateAccess none = AccessResult.deny ∧
    tenantsDeleteAccess none = AccessResult.deny ∧
    tenantsAdminAccess none = AccessResult.deny ∧
    rolesFieldUpdateAccess none = false ∧
    tenantsFieldReadAccess none = false ∧
    tenantsFieldUpdateAccess none = false ∧
    tenantsReadAccessVariant none = AccessResult.deny ∧
    tenantsMutateAccessVariant none = AccessResult.deny ∧
    rolesFieldAccessVariant none = false :=
  ⟨rfl, rfl, rfl, rfl, rfl, rfl, rfl, rfl, rfl, rfl, rfl, rfl, rfl, rfl, rfl, rfl⟩

/-- C7: the `roles` field-level update guard equals the super-admin test, so
it denies every authenticated non-super-admin even on the user's own record,
while the record-level User-update predicate simultaneously emits the own-id
constraint, which the user's own record satisfies. -/
theorem roles_field_update_super_only (v : Option AuthUser) (u : AuthUser)
    (i : String) (rts : List String)
    (hid : u.id = some i) (hns : isSuperAdmin (some u) = false) :
    rolesFieldUpdateAccess v = isSuperAdmin v ∧
    rolesFieldUpdateAccess (some u) = false ∧
    selfOrSuperAccess (some u) = AccessResult.filter (Where.eqW "id" u.id) ∧
    matchesWhere { rid := i, rtenants := rts } (Where.eqW "id" u.id) = true := by
  refine ⟨rfl, ?_, ?_, ?_⟩
  · simpa [rolesFieldUpdateAccess] using hns
  · simp [selfOrSuperAccess, hns]
  · simp [matchesWhere, hid]

/-- Witness for C7 at the concrete tenant-admin sample acting on its own
record. -/
theorem roles_field_update_super_only_witness :
    (tenantAdminSample.id = some "u1" ∧ isSuperAdmin (some tenantAdminSample) = false) ∧
    (rolesFieldUpdateAccess none = isSuperAdmin none ∧
     rolesFieldUpdateAccess (some tenantAdminSample) = false ∧
     selfOrSuperAccess (some tenantAdminSample) =
       AccessResult.filter (Where.eqW "id" tenantAdminSample.id) ∧
     matchesWhere { rid := "u1", rtenants := ["t1", "t2"] }
       (Where.eqW "id" tenantAdminSample.id) = true) :=
  ⟨⟨by decide, by decide⟩,
    roles_field_update_super_only none tenantAdminSample "u1" ["t1", "t2"]
      (by decide) (by decide)⟩

/-- C8: the shared-library `isSuperAdmin` and the two duplicated
per-collection implementations agree on every user snapshot of the
`AuthUser` interface, so consolidating them preserves behavior. -/
theorem is_super_admin_variants_agree (u : Option AuthUser) :
    isSuperAdminArrTenants u = isSuperAdmin u ∧
    isSuperAdminArrUsers u = isSuperAdmin u :=
  ⟨rfl, rfl⟩

/-- C2: the User `beforeChange` hook on a create operation passes the payload
through untouched for an absent or super-admin requester, and for an
authenticated non-super-admin replaces `tenants` with the requester's
resolved ids wrapped as `{tenant: id}`, sets `roles` to the payload's roles
or the `tenant-admin` default, and keeps the remaining fields. -/
theorem before_change_create_shape (data : Option UserPayload) (u : Option AuthUser) :
    beforeChange data u "create" =
      match u with
      | none => data
      | some v =>
        if isSuperAdmin (some v) then data
        else some { tenants := some ((getTenantIds (some v)).map wrapTenant)
                    roles := some ((data.bind UserPayload.roles).getD ["tenant-admin"])
                    rest := (data.map UserPayload.rest).getD [] } := by
  cases u with
  | none => simp [beforeChange]
  | some v =>
    by_cases hs : isSuperAdmin (some v) = true
    · simp [beforeChange, hs]
    · simp only [Bool.not_eq_true] at hs
      simp [beforeChange, hs]

/-- C10: on every operation other than create the hook is the identity for
every requester, and on create with an authenticated non-super-admin
requester the fields other than `tenants` and `roles` are preserved
unchanged. -/
theorem before_change_frame (data : Option UserPayload) (v : Option AuthUser)
    (u : AuthUser) (op : String)
    (hop : op ≠ "create") (hns : isSuperAdmin (some u) = false) :
    beforeChange data v op = data ∧
    (beforeChange data (some u) "create").map UserPayload.rest =
      some ((data.map UserPayload.rest).getD []) := by
  constructor
  · simp [beforeChange, hop]
  · simp [beforeChange, hns]

/-- Witness for C10 on an update operation and a concrete non-super-admin
creator. -/
theorem before_change_frame_witness :
    ("update" ≠ "create" ∧ isSuperAdmin (some tenantAdminSample) = false) ∧
    (beforeChange none none "update" = none ∧
     (beforeChange none (some tenantAdminSample) "create").map UserPayload.rest =
       some (((none : Option UserPayload).map UserPayload.rest).getD [])) :=
  ⟨⟨by decide, by decide⟩,
    before_change_frame none none tenantAdminSample "update" (by decide) (by decide)⟩

/-- A user snapshot holding the same membership identifier in two entries. -/
def duplicateMembershipSample : AuthUser :=
  { id := some "u2", roles := some ["tenant-admin"],
    tenants := some [TenantEntry.str "t1", TenantEntry.str "t1"] }

/-- Counterexample to C6 as stated: the resolver does not deduplicate — a
membership list holding `t1` twice resolves to `["t1", "t1"]`, in which the
identifier `t1` occurs more than once. -/
theorem getTenantIds_duplicates_survive :
    getTenantIds (some duplicateMembershipSample) = ["t1", "t1"] ∧
    ¬ (getTenantIds (some duplicateMembershipSample)).Nodup := by
  exact ⟨by decide, by decide⟩

/-- C6 amended: every identifier in the resolver's output is a non-empty
string (falsy results are filtered out), but the same identifier may occur
once per membership entry that resolves to it; callers treat the output as a
set via membership tests only. -/
theorem getTenantIds_members_nonempty (u : Option AuthUser) (s : String)
    (h : s ∈ getTenantIds u) : s ≠ "" := by
  cases u with
  | none => simp [getTenantIds] at h
  | some v =>
    cases hts : v.tenants with
    | none => simp [getTenantIds, hts] at h
    | some ts =>
      simp only [getTenantIds, hts] at h
      rw [List.mem_filterMap] at h
      obtain ⟨o, ho, hfo⟩ := h
      cases ht : truthy o with
      | false => simp [ht] at hfo
      | true =>
        simp only [ht, if_true] at hfo
        rw [hfo] at ht
        simpa [truthy] using ht

/-- Witness for C6 amended at a concrete resolved identifier. -/
theorem getTenantIds_members_nonempty_witness :
    "t1" ∈ getTenantIds (some tenantAdminSample) ∧ "t1" ≠ "" :=
  ⟨by decide, getTenantIds_members_nonempty (some tenantAdminSample) "t1" (by decide)⟩
